import Mathlib

/-!
Verification of the Conversational Command Interpretation & Tool Dispatch
subsystem of the todo chat application.

The development shallowly embeds, from the repository sources:

* `backend/agent/todo_agent.py`: the four-strategy command extractor
  `TodoAgent._parse_function_call` (including a model of Python
  `json.loads` and of the concrete regular-expression searches the
  extractor performs), the response-synthesis block and the orchestration
  logic of `TodoAgent.process_message`;
* `backend/agent/mcp_tools.py`: the tool dispatcher `MCPToolServer.call_tool`
  and the five tool handlers, over a list-based model of the SQL table of
  `backend/models.py` (rows in insertion order, ids from an autoincrement
  counter, NOT NULL enforcement on commit);
* `phase-3/backend/app/crud/task.py`: `TaskCRUD.get_all`, whose
  `ORDER BY created_at DESC` matters for the listing-order claim.

Python-level partiality (exceptions) is modelled with `Except`; Python
`None` is the JSON value `jnull`; Python dict semantics (insertion order,
overwrite-in-place, `.get` defaulting) are modelled explicitly.
-/

namespace TodoApp

/-! ### JSON values, as produced by json.loads

Python `json.loads` returns dicts, lists, strings, numbers, booleans and
`None`.  Numbers are modelled by the integer fragment only (the repository
never exchanges fractional numbers; the parser below refuses the float
forms rather than misparse them).  A Python dict is a list of key-value
pairs in insertion order with unique keys. -/

inductive JVal where
  | jnull
  | jbool (b : Bool)
  | jnum (n : Int)
  | jstr (s : String)
  | jarr (elems : List JVal)
  | jobj (fields : List (String × JVal))
deriving Repr

/-- The fields of a JSON object / a Python dict, in insertion order. -/
abbrev JObj := List (String × JVal)

/-- Dict lookup, distinguishing an absent key from a stored `None`. -/
def dictGet (o : JObj) (k : String) : Option JVal :=
  match o with
  | [] => none
  | (k', v) :: rest => if k' = k then some v else dictGet rest k

/-- Python `d.get(k)`: an absent key and a stored `None` both give `None`. -/
def pyGet (o : JObj) (k : String) : JVal :=
  (dictGet o k).getD JVal.jnull

/-- Python `d.get(k, default)`: the default applies only when the key is absent. -/
def pyGetD (o : JObj) (k : String) (d : JVal) : JVal :=
  (dictGet o k).getD d

/-- Key membership, Python `k in d`. -/
def hasKey (o : JObj) (k : String) : Bool :=
  (dictGet o k).isSome

/-- Python `d[k] = v`: overwrite in place when the key exists, else append. -/
def objInsert (o : JObj) (k : String) (v : JVal) : JObj :=
  if hasKey o k then o.map (fun kv => if kv.1 = k then (k, v) else kv)
  else o ++ [(k, v)]

/-- The dict comprehension dropping one key, order preserved
    (todo_agent.py line 158). -/
def removeKey (o : JObj) (k : String) : JObj :=
  o.filter (fun kv => kv.1 ≠ k)

/-- Python truthiness of a json.loads value. -/
def pyTruthy : JVal → Bool
  | .jnull => false
  | .jbool b => b
  | .jnum n => n != 0
  | .jstr s => s != ""
  | .jarr xs => !xs.isEmpty
  | .jobj fs => !fs.isEmpty

/-- Whether the value is Python `None`. -/
def JVal.isNull : JVal → Bool
  | .jnull => true
  | _ => false

/-- Python `v == lit` for a string literal `lit`: equality holds only for an
    equal string; any other type compares unequal. -/
def jvalIsStr (v : JVal) (lit : String) : Bool :=
  match v with
  | .jstr s => s = lit
  | _ => false

mutual
/-- Python `repr` of a json.loads value (used by `str` on containers). -/
def pyRepr : JVal → String
  | .jnull => "None"
  | .jbool true => "True"
  | .jbool false => "False"
  | .jnum n => toString n
  | .jstr s => "\x27" ++ s ++ "\x27"
  | .jarr xs => "[" ++ String.intercalate ", " (pyReprList xs) ++ "]"
  | .jobj fs => "\x7b" ++ String.intercalate ", " (pyReprFields fs) ++ "\x7d"

/-- Reprs of the elements of a list value. -/
def pyReprList : List JVal → List String
  | [] => []
  | v :: vs => pyRepr v :: pyReprList vs

/-- Reprs of the members of a dict value. -/
def pyReprFields : List (String × JVal) → List String
  | [] => []
  | (k, v) :: fs => ("\x27" ++ k ++ "\x27: " ++ pyRepr v) :: pyReprFields fs
end

/-- Python `str` of a json.loads value, as interpolated by an f-string:
    strings verbatim, `None`/`True`/`False` capitalised, containers via repr. -/
def pyStr : JVal → String
  | .jnull => "None"
  | .jbool true => "True"
  | .jbool false => "False"
  | .jnum n => toString n
  | .jstr s => s
  | .jarr xs => "[" ++ String.intercalate ", " (pyReprList xs) ++ "]"
  | .jobj fs => "\x7b" ++ String.intercalate ", " (pyReprFields fs) ++ "\x7d"

/-! ### A model of Python json.loads

Recursive-descent parser over the character list, made total by a fuel
argument (two times the input length plus a constant is ample).  It covers
objects, arrays, strings with the standard escapes, integers, booleans and
null — the JSON fragment the agent exchanges.  Float forms (`.`, `e`, `E`
after the digits) and leading zeros are rejected rather than misparsed.
Errors are `Except.error` with a message, standing for `json.JSONDecodeError`. -/

/-- Whitespace for json.loads, `str.strip()` and the regex class `\s`
    (the ASCII whitespace characters). -/
def pyWs (c : Char) : Bool :=
  c = ' ' || c = '\t' || c = '\n' || c = '\r' || c = '\x0b' || c = '\x0c'

/-- Drop leading whitespace. -/
def skipWs (cs : List Char) : List Char := cs.dropWhile pyWs

/-- Python `str.strip()`. -/
def pyStrip (cs : List Char) : List Char :=
  ((cs.dropWhile pyWs).reverse.dropWhile pyWs).reverse

/-- Consume an expected literal character sequence. -/
def dropLit : List Char → List Char → Option (List Char)
  | [], cs => some cs
  | _ :: _, [] => none
  | p :: ps, c :: cs => if p = c then dropLit ps cs else none

/-- Value of a hexadecimal digit. -/
def hexVal (c : Char) : Option Nat :=
  if '0' ≤ c ∧ c ≤ '9' then some (c.toNat - '0'.toNat)
  else if 'a' ≤ c ∧ c ≤ 'f' then some (c.toNat - 'a'.toNat + 10)
  else if 'A' ≤ c ∧ c ≤ 'F' then some (c.toNat - 'A'.toNat + 10)
  else none

/-- The single-character JSON string escapes. -/
def escChar : Char → Option Char
  | '"' => some '"'
  | '\\' => some '\\'
  | '/' => some '/'
  | 'b' => some '\x08'
  | 'f' => some '\x0c'
  | 'n' => some '\n'
  | 'r' => some '\r'
  | 't' => some '\t'
  | _ => none

/-- Prepend a character to a string. -/
def strCons (c : Char) (s : String) : String := ⟨c :: s.data⟩

/-- Parse the body of a JSON string after the opening quote; returns the
    decoded string and the characters after the closing quote.  Raw control
    characters are rejected (json.loads strict mode). -/
def parseStringBody : List Char → Option (String × List Char)
  | [] => none
  | '"' :: rest => some ("", rest)
  | '\\' :: 'u' :: h1 :: h2 :: h3 :: h4 :: rest =>
    match hexVal h1, hexVal h2, hexVal h3, hexVal h4 with
    | some a, some b, some c, some d =>
      match parseStringBody rest with
      | some (s, r) => some (strCons (Char.ofNat (((a * 16 + b) * 16 + c) * 16 + d)) s, r)
      | none => none
    | _, _, _, _ => none
  | '\\' :: e :: rest =>
    if e = 'u' then none
    else
      match escChar e with
      | some ec =>
        match parseStringBody rest with
        | some (s, r) => some (strCons ec s, r)
        | none => none
      | none => none
  | c :: rest =>
    if c.toNat < 32 then none
    else
      match parseStringBody rest with
      | some (s, r) => some (strCons c s, r)
      | none => none

/-- Digits of a decimal integer as a natural number. -/
def digitsToNat (ds : List Char) : Nat :=
  ds.foldl (fun acc c => acc * 10 + (c.toNat - '0'.toNat)) 0

/-- Parse an unsigned JSON integer; rejects leading zeros and float forms. -/
def parseNatNum (cs : List Char) : Option (Nat × List Char) :=
  let ds := cs.takeWhile Char.isDigit
  let rest := cs.dropWhile Char.isDigit
  if ds = [] then none
  else if ds.length > 1 ∧ ds.head? = some '0' then none
  else
    match rest with
    | c :: _ => if c = '.' ∨ c = 'e' ∨ c = 'E' then none else some (digitsToNat ds, rest)
    | [] => some (digitsToNat ds, rest)

/-- Parse a JSON number (integer fragment). -/
def parseNumber (cs : List Char) : Option (JVal × List Char) :=
  match cs with
  | [] => none
  | c :: rest =>
    if c = '-' then
      match parseNatNum rest with
      | some (n, r) => some (JVal.jnum (-(n : Int)), r)
      | none => none
    else
      match parseNatNum (c :: rest) with
      | some (n, r) => some (JVal.jnum (n : Int), r)
      | none => none

mutual
/-- Parse one JSON value at the head of the input (no leading whitespace). -/
def parseValue : Nat → List Char → Option (JVal × List Char)
  | 0, _ => none
  | fuel + 1, cs =>
    match cs with
    | [] => none
    | c :: rest =>
      if c = '{' then parseObjBody fuel (skipWs rest)
      else if c = '[' then parseArrBody fuel (skipWs rest)
      else if c = '"' then
        match parseStringBody rest with
        | some (s, r) => some (JVal.jstr s, r)
        | none => none
      else if c = 't' then
        match dropLit "rue".data rest with
        | some r => some (JVal.jbool true, r)
        | none => none
      else if c = 'f' then
        match dropLit "alse".data rest with
        | some r => some (JVal.jbool false, r)
        | none => none
      else if c = 'n' then
        match dropLit "ull".data rest with
        | some r => some (JVal.jnull, r)
        | none => none
      else if c = '-' ∨ c.isDigit then parseNumber (c :: rest)
      else none

/-- Parse an object body after the opening brace (whitespace skipped). -/
def parseObjBody : Nat → List Char → Option (JVal × List Char)
  | 0, _ => none
  | fuel + 1, cs =>
    match cs with
    | [] => none
    | c :: rest =>
      if c = '}' then some (JVal.jobj [], rest)
      else parseMembers fuel (c :: rest) []

/-- Parse the members of a non-empty object, accumulating a dict. -/
def parseMembers : Nat → List Char → JObj → Option (JVal × List Char)
  | 0, _, _ => none
  | fuel + 1, cs, acc =>
    match cs with
    | [] => none
    | c :: rest =>
      if c = '"' then
        match parseStringBody rest with
        | none => none
        | some (k, r1) =>
          match skipWs r1 with
          | [] => none
          | c2 :: r2 =>
            if c2 = ':' then
              match parseValue fuel (skipWs r2) with
              | none => none
              | some (v, r3) =>
                match skipWs r3 with
                | [] => none
                | c3 :: r4 =>
                  if c3 = ',' then parseMembers fuel (skipWs r4) (objInsert acc k v)
                  else if c3 = '}' then some (JVal.jobj (objInsert acc k v), r4)
                  else none
            else none
      else none

/-- Parse an array body after the opening bracket (whitespace skipped). -/
def parseArrBody : Nat → List Char → Option (JVal × List Char)
  | 0, _ => none
  | fuel + 1, cs =>
    match cs with
    | [] => none
    | c :: rest =>
      if c = ']' then some (JVal.jarr [], rest)
      else parseElems fuel (c :: rest) []

/-- Parse the elements of a non-empty array. -/
def parseElems : Nat → List Char → List JVal → Option (JVal × List Char)
  | 0, _, _ => none
  | fuel + 1, cs, acc =>
    match parseValue fuel cs with
    | none => none
    | some (v, r1) =>
      match skipWs r1 with
      | [] => none
      | c2 :: r2 =>
        if c2 = ',' then parseElems fuel (skipWs r2) (acc ++ [v])
        else if c2 = ']' then some (JVal.jarr (acc ++ [v]), r2)
        else none
end

/-- Model of `json.loads` on a character list: parse one value, demand that
    only whitespace remains (else Python raises "Extra data"). -/
def jloads (cs : List Char) : Except String JVal :=
  match parseValue (4 * cs.length + 8) (skipWs cs) with
  | some (v, rest) => if skipWs rest = [] then Except.ok v else Except.error "Extra data"
  | none => Except.error "Expecting value"

/-! ### The extraction strategies of TodoAgent._parse_function_call

Each regular-expression search of the Python source is embedded as a
deterministic scanning function.  The searches mirror `re.search`
semantics: candidate start positions are tried left to right, and at each
position the concrete pattern is matched with its (here forced,
branch-free) greedy/lazy behaviour. -/

/-- The literal `"function"` with its quotes, as the strategy-3 and
    strategy-4 patterns require it. -/
def qFunctionLit : List Char := "\"function\"".data

/-- The literal `"arguments"` with its quotes. -/
def qArgumentsLit : List Char := "\"arguments\"".data

/-- The fence literal of strategy 2. -/
def fenceLit : List Char := "```".data

/-- Does the pattern occur at the head of the input? -/
def startsWithSeq : List Char → List Char → Bool
  | [], _ => true
  | _ :: _, [] => false
  | p :: ps, c :: cs => p = c && startsWithSeq ps cs

/-- Does the pattern occur anywhere in the input? -/
def containsSeq (pat : List Char) : List Char → Bool
  | [] => startsWithSeq pat []
  | c :: rest => startsWithSeq pat (c :: rest) || containsSeq pat rest

/-- Does the input, after maximal whitespace, start with the pattern?
    Embeds a trailing regex fragment of the shape `\s*<literal>`. -/
def litAfterWs (pat : List Char) (cs : List Char) : Bool :=
  (dropLit pat (skipWs cs)).isSome

/-- Lazy body scan of strategy 2: the shortest run of arbitrary characters
    ending at a closing brace that is followed by `\s*` and the fence.
    Returns the body including that closing brace. -/
def s2Close : List Char → Option (List Char)
  | [] => none
  | c :: rest =>
    if c = '}' ∧ litAfterWs fenceLit rest then some ['}']
    else
      match s2Close rest with
      | some tail => some (c :: tail)
      | none => none

/-- Strategy-2 pattern match at one position: the fence, an optional `json`
    tag, `\s*`, then the lazily captured brace-delimited block
    (todo_agent.py line 69).  Returns the capture group. -/
def s2At (cs : List Char) : Option (List Char) :=
  match dropLit fenceLit cs with
  | none => none
  | some r1 =>
    let r2 := match dropLit "json".data r1 with
      | some x => x
      | none => r1
    match skipWs r2 with
    | '{' :: r4 =>
      match s2Close r4 with
      | some body => some ('{' :: body)
      | none => none
    | _ => none

/-- Leftmost strategy-2 match in the text. -/
def searchS2 : List Char → Option (List Char)
  | [] => none
  | c :: rest =>
    match s2At (c :: rest) with
    | some m => some m
    | none => searchS2 rest

/-- Characters allowed inside the strategy-3 object: anything but a brace. -/
def nonBrace (c : Char) : Bool := c ≠ '{' && c ≠ '}'

/-- Strategy-3 pattern match at one position: a brace, a run of non-brace
    characters containing the literal `"function"`, and a closing brace
    (todo_agent.py line 79).  Returns the matched substring. -/
def s3At : List Char → Option (List Char)
  | [] => none
  | c :: rest =>
    if c = '{' then
      if (rest.dropWhile nonBrace).head? = some '}' then
        if containsSeq qFunctionLit (rest.takeWhile nonBrace) then
          some ('{' :: (rest.takeWhile nonBrace ++ ['}']))
        else none
      else none
    else none

/-- Leftmost strategy-3 match in the text. -/
def searchS3 : List Char → Option (List Char)
  | [] => none
  | c :: rest =>
    match s3At (c :: rest) with
    | some m => some m
    | none => searchS3 rest

/-- Word characters of the regex class `\w` (ASCII fragment). -/
def isWordChar (c : Char) : Bool := c.isAlphanum || c = '_'

/-- Match `"function"\s*:\s*"(\w+)"` at one position; returns the captured
    name and the remaining input. -/
def matchFuncKey (cs : List Char) : Option (String × List Char) :=
  match dropLit qFunctionLit cs with
  | none => none
  | some r1 =>
    match skipWs r1 with
    | ':' :: r2 =>
      match skipWs r2 with
      | '"' :: r3 =>
        let w := r3.takeWhile isWordChar
        if w.isEmpty then none
        else
          match r3.dropWhile isWordChar with
          | '"' :: r4 => some (String.mk w, r4)
          | _ => none
      | _ => none
    | _ => none

/-- Match `"arguments"\s*:\s*(\{[^}]*\})` at one position; returns the
    captured argument fragment and the remaining input. -/
def matchArgsKey (cs : List Char) : Option (List Char × List Char) :=
  match dropLit qArgumentsLit cs with
  | none => none
  | some r1 =>
    match skipWs r1 with
    | ':' :: r2 =>
      match skipWs r2 with
      | '{' :: r3 =>
        let body := r3.takeWhile (fun c => c ≠ '}')
        match r3.dropWhile (fun c => c ≠ '}') with
        | '}' :: r4 => some ('{' :: (body ++ ['}']), r4)
        | _ => none
      | _ => none
    | _ => none

/-- Lazy scan for the arguments part of strategy 4, with the final `.*?\}`
    continuation check; backtracks to later occurrences when it fails. -/
def s4FindArgs : List Char → Option (List Char)
  | [] => none
  | c :: rest =>
    match matchArgsKey (c :: rest) with
    | some (frag, after) => if after.contains '}' then some frag else s4FindArgs rest
    | none => s4FindArgs rest

/-- Lazy scan for the function part of strategy 4; on continuation failure
    the regex engine backtracks to a later `"function"` occurrence. -/
def s4FindFunc : List Char → Option (String × List Char)
  | [] => none
  | c :: rest =>
    match matchFuncKey (c :: rest) with
    | some (w, after) =>
      match s4FindArgs after with
      | some frag => some (w, frag)
      | none => s4FindFunc rest
    | none => s4FindFunc rest

/-- Leftmost strategy-4 match (the DOTALL reconstruction regex of
    todo_agent.py line 90): an opening brace, then lazily the function name
    and the argument fragment, then a closing brace. -/
def searchS4 : List Char → Option (String × List Char)
  | [] => none
  | c :: rest =>
    if c = '{' then
      match s4FindFunc rest with
      | some res => some res
      | none => searchS4 rest
    else searchS4 rest

/-- Strategy 1 (todo_agent.py lines 57 to 66): if the stripped text is
    brace-delimited, json-parse it whole and accept when the parsed dict
    has a `function` key; any parse error is absorbed. -/
def strat1 (cs : List Char) : Option JObj :=
  let stripped := pyStrip cs
  if stripped.head? = some '{' ∧ stripped.getLast? = some '}' then
    match jloads stripped with
    | Except.ok (JVal.jobj fields) =>
      if hasKey fields "function" then some fields else none
    | _ => none
  else none

/-- Strategy 2 (todo_agent.py lines 69 to 77): json-parse the fenced block
    capture and accept when the parsed dict has a `function` key; any parse
    error is absorbed. -/
def strat2 (cs : List Char) : Option JObj :=
  match searchS2 cs with
  | some m =>
    match jloads m with
    | Except.ok (JVal.jobj fields) =>
      if hasKey fields "function" then some fields else none
    | _ => none
  | none => none

/-- Strategy 3 (todo_agent.py lines 79 to 87): json-parse the inline match
    and return it without any further validation; any parse error is
    absorbed.  Since every match starts with a brace, a successful parse is
    always a dict. -/
def strat3 (cs : List Char) : Option JObj :=
  match searchS3 cs with
  | some m =>
    match jloads m with
    | Except.ok (JVal.jobj fields) => some fields
    | _ => none
  | none => none

/-- Strategy 4 (todo_agent.py lines 90 to 100): reconstruct a command from
    the separately captured name and argument fragment; a json failure on
    the fragment is absorbed.  The fragment starts with a brace, so a
    successful parse is always a dict. -/
def strat4 (cs : List Char) : Option JObj :=
  match searchS4 cs with
  | some (w, frag) =>
    match jloads frag with
    | Except.ok (JVal.jobj af) =>
      some [("function", JVal.jstr w), ("arguments", JVal.jobj af)]
    | _ => none
  | none => none

/-- TodoAgent._parse_function_call: the four strategies in order, first
    success wins; total by construction (every internal failure falls
    through), returning a parsed dict or nothing. -/
def parseFunctionCall (text : String) : Option JObj :=
  let cs := text.data
  match strat1 cs with
  | some d => some d
  | none =>
    match strat2 cs with
    | some d => some d
    | none =>
      match strat3 cs with
      | some d => some d
      | none => strat4 cs

/-! ### The store and the tool handlers of MCPToolServer

The tasks table of backend/models.py is modelled as its rows in insertion
order plus the autoincrement counter that owns id generation.  A row keeps
the dynamically-typed values the handlers store into it (`user_id` and
`content` receive whatever `args.get` produced); the SQL layer enforces
only the NOT NULL constraints of the declared schema, on commit.
A Python exception escaping a handler (the IntegrityError of a NOT NULL
violation, and the orchestrator-level errors further below) is an
`Except.error`. -/

inductive PyErr where
  /-- UnboundLocalError: a local variable referenced before assignment. -/
  | unboundLocal
  /-- TypeError: item assignment or iteration on an unsupported type. -/
  | typeErr
  /-- KeyError: subscripting a dict that lacks the key. -/
  | keyErr
  /-- IntegrityError: a NOT NULL constraint failed on commit. -/
  | integrityErr
deriving Repr, DecidableEq

/-- One row of the tasks table (backend/models.py `Task`). -/
structure Task where
  id : Nat
  user_id : JVal
  content : JVal
  completed : Bool
deriving Repr

/-- The tasks table: rows in insertion order, plus the id counter. -/
structure Store where
  tasks : List Task
  nextId : Nat
deriving Repr

/-- SQL equality of a stored column value and a query parameter: NULL
    compares false against everything, and values of different storage
    classes compare unequal (columns only ever hold scalars). -/
def sqlEq : JVal → JVal → Bool
  | .jnull, _ => false
  | _, .jnull => false
  | .jnum a, .jnum b => a = b
  | .jstr a, .jstr b => a = b
  | .jbool a, .jbool b => a = b
  | _, _ => false

/-- The WHERE clause shared by complete, delete and update:
    `Task.id == task_id, Task.user_id == user_id`. -/
def whereIdOwner (task_id user_id : JVal) (t : Task) : Bool :=
  sqlEq (JVal.jnum t.id) task_id && sqlEq t.user_id user_id

/-- Replace the first row satisfying the predicate. -/
def updateFirst (p : Task → Bool) (f : Task → Task) : List Task → List Task
  | [] => []
  | t :: ts => if p t then f t :: ts else t :: updateFirst p f ts

/-- Remove the first row satisfying the predicate. -/
def removeFirst (p : Task → Bool) : List Task → List Task
  | [] => []
  | t :: ts => if p t then ts else t :: removeFirst p ts

/-- The not-found result shared by complete, delete and update. -/
def notFoundResult (task_id : JVal) : JObj :=
  [("task_id", task_id), ("status", JVal.jstr "not_found"),
   ("error", JVal.jstr ("Task " ++ pyStr task_id ++ " not found"))]

/-- MCPToolServer._add_task: insert a row with the given title for the
    user; the commit enforces NOT NULL on `content` and `user_id`. -/
def addTask (st : Store) (args : JObj) : Except PyErr (JObj × Store) :=
  let user_id := pyGet args "user_id"
  let title := pyGet args "title"
  if title.isNull ∨ user_id.isNull then Except.error PyErr.integrityErr
  else
    Except.ok
      ([("task_id", JVal.jnum st.nextId), ("status", JVal.jstr "created"), ("title", title)],
       ⟨st.tasks ++ [⟨st.nextId, user_id, title, false⟩], st.nextId + 1⟩)

/-- A task row rendered for the list result. -/
def taskToJson (t : Task) : JVal :=
  JVal.jobj [("id", JVal.jnum t.id), ("title", t.content), ("completed", JVal.jbool t.completed)]

/-- MCPToolServer._list_tasks: all rows of the user, in table order, plus
    their count. -/
def listTasks (st : Store) (args : JObj) : Except PyErr (JObj × Store) :=
  let user_id := pyGet args "user_id"
  let ts := st.tasks.filter (fun t => sqlEq t.user_id user_id)
  Except.ok
    ([("tasks", JVal.jarr (ts.map taskToJson)), ("count", JVal.jnum ts.length)], st)

/-- MCPToolServer._complete_task: find the first row matching id and owner;
    toggle its `completed`; report the new state, or not_found. -/
def completeTask (st : Store) (args : JObj) : Except PyErr (JObj × Store) :=
  let user_id := pyGet args "user_id"
  let task_id := pyGet args "task_id"
  match st.tasks.find? (whereIdOwner task_id user_id) with
  | none => Except.ok (notFoundResult task_id, st)
  | some task =>
    Except.ok
      ([("task_id", JVal.jnum task.id),
        ("status", JVal.jstr (if !task.completed then "completed" else "uncompleted")),
        ("title", task.content)],
       ⟨updateFirst (whereIdOwner task_id user_id)
          (fun u => { u with completed := !u.completed }) st.tasks,
        st.nextId⟩)

/-- MCPToolServer._delete_task: find the first row matching id and owner;
    remove it; report the deletion, or not_found. -/
def deleteTask (st : Store) (args : JObj) : Except PyErr (JObj × Store) :=
  let user_id := pyGet args "user_id"
  let task_id := pyGet args "task_id"
  match st.tasks.find? (whereIdOwner task_id user_id) with
  | none => Except.ok (notFoundResult task_id, st)
  | some task =>
    Except.ok
      ([("task_id", task_id), ("status", JVal.jstr "deleted"), ("title", task.content)],
       ⟨removeFirst (whereIdOwner task_id user_id) st.tasks, st.nextId⟩)

/-- MCPToolServer._update_task: find the first row matching id and owner;
    replace its content with the given title (NOT NULL enforced on commit);
    report the update, or not_found. -/
def updateTask (st : Store) (args : JObj) : Except PyErr (JObj × Store) :=
  let user_id := pyGet args "user_id"
  let task_id := pyGet args "task_id"
  let title := pyGet args "title"
  match st.tasks.find? (whereIdOwner task_id user_id) with
  | none => Except.ok (notFoundResult task_id, st)
  | some task =>
    if title.isNull then Except.error PyErr.integrityErr
    else
      Except.ok
        ([("task_id", JVal.jnum task.id), ("status", JVal.jstr "updated"), ("title", title)],
         ⟨updateFirst (whereIdOwner task_id user_id)
            (fun u => { u with content := title }) st.tasks,
          st.nextId⟩)

/-- MCPToolServer.call_tool: dynamic dispatch over the five registered
    tools; an unknown name yields the structured error payload. -/
def callTool (st : Store) (name : String) (args : JObj) : Except PyErr (JObj × Store) :=
  if name = "add_task" then addTask st args
  else if name = "list_tasks" then listTasks st args
  else if name = "complete_task" then completeTask st args
  else if name = "delete_task" then deleteTask st args
  else if name = "update_task" then updateTask st args
  else Except.ok ([("error", JVal.jstr ("Unknown tool: " ++ name))], st)

/-! ### The response synthesis block of TodoAgent.process_message

Lines 161 to 191 of todo_agent.py turn the tool result into the reply
text.  The block is pure except for the Python subscript errors it can
raise when handed an ill-shaped result, modelled with `Except`. -/

/-- One line of the task listing: the loop body of the list branch;
    subscripting a non-dict raises TypeError, a missing key KeyError. -/
def taskLines : List JVal → Except PyErr (List String)
  | [] => Except.ok []
  | t :: ts =>
    match t with
    | JVal.jobj f =>
      match dictGet f "completed" with
      | none => Except.error PyErr.keyErr
      | some cv =>
        let status := if pyTruthy cv then "done" else "pending"
        match dictGet f "id" with
        | none => Except.error PyErr.keyErr
        | some idv =>
          match dictGet f "title" with
          | none => Except.error PyErr.keyErr
          | some tv =>
            match taskLines ts with
            | Except.ok rest =>
              Except.ok (("  " ++ pyStr idv ++ ". " ++ pyStr tv ++ " [" ++ status ++ "]") :: rest)
            | Except.error e => Except.error e
    | _ => Except.error PyErr.typeErr

/-- The static help reply of the no-command branch. -/
def helpMessage : String :=
  "I can help you manage tasks. Try: \x27add task buy groceries\x27 or \x27show tasks\x27"

/-- The per-tool formatting chain of todo_agent.py lines 161 to 191. -/
def synthesizeResponse (funcName : String) (result : JObj) : Except PyErr String :=
  if funcName = "add_task" then
    Except.ok ("Added task: \x27" ++ pyStr (pyGet result "title")
      ++ "\x27 (ID: " ++ pyStr (pyGet result "task_id") ++ ")")
  else if funcName = "list_tasks" then
    let tasks := pyGetD result "tasks" (JVal.jarr [])
    if pyTruthy tasks then
      match tasks with
      | JVal.jarr ts =>
        match taskLines ts with
        | Except.ok lines => Except.ok ("Your tasks:\n" ++ String.intercalate "\n" lines)
        | Except.error e => Except.error e
      | _ => Except.error PyErr.typeErr
    else Except.ok "You have no tasks yet. Try adding one!"
  else if funcName = "complete_task" then
    let statusV := pyGet result "status"
    if jvalIsStr statusV "completed" || jvalIsStr statusV "uncompleted" then
      let word := if jvalIsStr statusV "completed" then "complete" else "incomplete"
      Except.ok ("Marked \x27" ++ pyStr (pyGet result "title") ++ "\x27 as " ++ word ++ "!")
    else Except.ok "Task not found."
  else if funcName = "delete_task" then
    if jvalIsStr (pyGet result "status") "deleted" then
      Except.ok ("Deleted \x27" ++ pyStr (pyGet result "title") ++ "\x27")
    else Except.ok "Task not found."
  else if funcName = "update_task" then
    if jvalIsStr (pyGet result "status") "updated" then
      Except.ok ("Updated task to \x27" ++ pyStr (pyGet result "title") ++ "\x27")
    else Except.ok "Task not found."
  else Except.ok "Done!"

/-! ### The orchestrator TodoAgent.process_message

The part after the external LLM call: the completion text goes through the
extractor, the dispatcher and the synthesizer.  The audit record is built
from the mutated argument dict with the injected `user_id` key stripped.
When the extracted dict is truthy but its `function` value is falsy
(absent, null, empty), no branch assigns `response_text` and the final
print raises UnboundLocalError.  Where the code compares or interpolates a
possibly non-string function value, the model passes its Python `str` form
(equal to the value itself for strings, and never equal to a registered
tool name for any non-string). -/

/-- One entry of the returned tool-call audit list. -/
structure ToolCallRecord where
  name : String
  arguments : JObj
  result : JObj
deriving Repr

/-- TodoAgent.process_message after the LLM call, on the completion text. -/
def processMessage (st : Store) (user_id : String) (llm_response : String) :
    Except PyErr (String × List ToolCallRecord × Store) :=
  match parseFunctionCall llm_response with
  | some fc =>
    if fc.isEmpty then
      Except.ok ((if llm_response = "" then helpMessage else llm_response), [], st)
    else
      let fnVal := pyGet fc "function"
      let fnArgs := pyGetD fc "arguments" (JVal.jobj [])
      if pyTruthy fnVal then
        match fnArgs with
        | JVal.jobj af =>
          let args := objInsert af "user_id" (JVal.jstr user_id)
          let nm := pyStr fnVal
          match callTool st nm args with
          | Except.error e => Except.error e
          | Except.ok (result, st') =>
            match synthesizeResponse nm result with
            | Except.error e => Except.error e
            | Except.ok text =>
              Except.ok (text, [⟨nm, removeKey args "user_id", result⟩], st')
        | _ => Except.error PyErr.typeErr
      else Except.error PyErr.unboundLocal
  | none =>
    Except.ok ((if llm_response = "" then helpMessage else llm_response), [], st)

/-! ### The phase-3 listing (TaskCRUD.get_all)

The phase-3 variant stores a `created_at` timestamp per row (assigned at
insertion, so later rows carry larger values; the model keeps it abstract
as a number) and its `get_all` orders the listing by `created_at`
descending.  Ties, which the SQL backend may order arbitrarily, are
resolved by the sort below; the theorems only use distinct timestamps. -/

/-- One row of the phase-3 tasks table (phase-3 app/models/task.py). -/
structure P3Task where
  id : Nat
  user_id : String
  title : String
  description : Option String
  completed : Bool
  created_at : Nat
deriving Repr, DecidableEq

/-- The descending created_at order of `ORDER BY created_at DESC`. -/
def p3Desc (a b : P3Task) : Prop := b.created_at ≤ a.created_at

instance : DecidableRel p3Desc := fun a b => Nat.decLe b.created_at a.created_at

instance : IsTotal P3Task p3Desc :=
  ⟨fun a b => Nat.le_total b.created_at a.created_at⟩

instance : IsTrans P3Task p3Desc :=
  ⟨fun _ _ _ hab hbc => Nat.le_trans hbc hab⟩

namespace TaskCRUD

/-- TaskCRUD.get_all: the rows of the user, optionally filtered by status,
    ordered by created_at descending. -/
def get_all (db : List P3Task) (user_id : String) (status : Option String) :
    List P3Task :=
  let q := db.filter (fun t => t.user_id = user_id)
  let q := if status = some "completed" then q.filter (fun t => t.completed)
    else if status = some "pending" then q.filter (fun t => !t.completed)
    else q
  List.insertionSort p3Desc q

end TaskCRUD

/-! ### Helper lemmas -/

/-- A stripped `user_id` key cannot be looked up any more. -/
theorem dictGet_removeKey (o : JObj) (k : String) : dictGet (removeKey o k) k = none := by
  induction o with
  | nil => rfl
  | cons kv rest ih =>
    obtain ⟨k', v⟩ := kv
    simp only [removeKey, List.filter_cons] at ih ⊢
    by_cases hk : k' = k
    · simpa [hk] using ih
    · simpa [hk, dictGet] using ih

/-- The record arguments never contain the stripped key. -/
theorem hasKey_removeKey (o : JObj) (k : String) : hasKey (removeKey o k) k = false := by
  simp [hasKey, dictGet_removeKey]

/-- find? returns the designated element when it is the only one matching. -/
theorem find?_unique {p : Task → Bool} {l : List Task} {t : Task}
    (hmem : t ∈ l) (hpt : p t = true) (huniq : ∀ u ∈ l, p u = true → u = t) :
    l.find? p = some t := by
  induction l with
  | nil => cases hmem
  | cons u rest ih =>
    by_cases hu : p u = true
    · have h2 : u = t := huniq u (List.mem_cons_self u rest) hu
      subst h2
      simp [List.find?, hu]
    · have hne : u ≠ t := fun h => hu (h ▸ hpt)
      have hmem' : t ∈ rest := by
        rcases List.mem_cons.mp hmem with h | h
        · exact absurd h.symm hne
        · exact h
      have huniq' : ∀ v ∈ rest, p v = true → v = t :=
        fun v hv => huniq v (List.mem_cons_of_mem u hv)
      simp [List.find?, Bool.of_not_eq_true hu, ih hmem' huniq']

/-- After the first match is replaced, it is still the first match when the
    replacement keeps matching. -/
theorem find?_updateFirst {p : Task → Bool} {f : Task → Task} {l : List Task} {t : Task}
    (h : l.find? p = some t) (hpf : p (f t) = true) :
    (updateFirst p f l).find? p = some (f t) := by
  induction l with
  | nil => simp [List.find?] at h
  | cons u rest ih =>
    by_cases hu : p u = true
    · simp only [List.find?, hu] at h
      obtain rfl : u = t := by simpa using h
      simp [updateFirst, hu, List.find?, hpf]
    · have hu' := Bool.of_not_eq_true hu
      simp only [List.find?, hu'] at h
      simp [updateFirst, hu', List.find?, ih h]

/-- Replacing the first match twice with an involutive, match-preserving
    replacement restores the table. -/
theorem updateFirst_invol {p : Task → Bool} {f : Task → Task}
    (hf : ∀ x, p x = true → p (f x) = true ∧ f (f x) = x) :
    ∀ l, updateFirst p f (updateFirst p f l) = l := by
  intro l
  induction l with
  | nil => rfl
  | cons u rest ih =>
    by_cases hu : p u = true
    · simp [updateFirst, hu, (hf u hu).1, (hf u hu).2]
    · simp [updateFirst, Bool.of_not_eq_true hu, ih]

/-- The WHERE clause is false on every row when the owner differs from the
    unique owner of the addressed id. -/
theorem whereIdOwner_cross_user {st : Store} {t : Task} {A B : String}
    (hA : t.user_id = JVal.jstr A)
    (huniq : ∀ u ∈ st.tasks, u.id = t.id → u = t)
    (hne : B ≠ A) :
    st.tasks.find? (whereIdOwner (JVal.jnum t.id) (JVal.jstr B)) = none := by
  apply List.find?_eq_none.mpr
  intro u hu hp
  have hand := (Bool.and_eq_true _ _).mp hp
  have hid : u.id = t.id := by
    have := hand.1
    simp only [sqlEq] at this
    exact_mod_cast of_decide_eq_true this
  have hut : u = t := huniq u hu hid
  have := hand.2
  rw [hut, hA] at this
  simp only [sqlEq] at this
  exact hne ((of_decide_eq_true this).symm)

/-! ### Claim theorems -/

/-- C6: dispatching any tool name outside the five registered operations
    returns the structured payload with error `Unknown tool: <name>`,
    leaves the store untouched and raises nothing, and the response
    synthesis chain maps that result to the generic reply `Done!`. -/
theorem unknown_tool_structured_error (st : Store) (nm : String) (args : JObj)
    (h : nm ∉ ["add_task", "list_tasks", "complete_task", "delete_task", "update_task"]) :
    callTool st nm args
        = Except.ok ([("error", JVal.jstr ("Unknown tool: " ++ nm))], st) ∧
    synthesizeResponse nm [("error", JVal.jstr ("Unknown tool: " ++ nm))]
        = Except.ok "Done!" := by
  simp only [List.mem_cons, List.not_mem_nil, or_false, not_or] at h
  obtain ⟨h1, h2, h3, h4, h5⟩ := h
  exact ⟨by simp [callTool, h1, h2, h3, h4, h5],
         by simp [synthesizeResponse, h1, h2, h3, h4, h5]⟩

/-- C6 witness: the unknown-tool scenario of the spec, at the name
    `nonexistent_tool` on an empty store. -/
theorem unknown_tool_structured_error_witness :
    callTool ⟨[], 1⟩ "nonexistent_tool" []
        = Except.ok ([("error", JVal.jstr "Unknown tool: nonexistent_tool")], ⟨[], 1⟩) ∧
    synthesizeResponse "nonexistent_tool" [("error", JVal.jstr "Unknown tool: nonexistent_tool")]
        = Except.ok "Done!" :=
  unknown_tool_structured_error ⟨[], 1⟩ "nonexistent_tool" [] (by decide)

/-- C9: dispatching add_task with owner A and a non-empty title s returns
    status `created`, title s and the generated id (the store counter),
    persists the row with completed false, and synthesizing that result
    yields exactly `Added task: <s> (ID: <n>)` with the title quoted. -/
theorem add_task_round_trip (st : Store) (A s : String) (hs : s ≠ "") :
    callTool st "add_task" [("user_id", JVal.jstr A), ("title", JVal.jstr s)]
        = Except.ok ([("task_id", JVal.jnum st.nextId), ("status", JVal.jstr "created"),
                      ("title", JVal.jstr s)],
            ⟨st.tasks ++ [⟨st.nextId, JVal.jstr A, JVal.jstr s, false⟩], st.nextId + 1⟩) ∧
    synthesizeResponse "add_task"
        [("task_id", JVal.jnum st.nextId), ("status", JVal.jstr "created"), ("title", JVal.jstr s)]
        = Except.ok ("Added task: \x27" ++ s ++ "\x27 (ID: " ++ toString st.nextId ++ ")") := by
  constructor
  · simp [callTool, addTask, pyGet, dictGet, JVal.isNull]
  · simp only [synthesizeResponse, if_pos rfl]
    rfl

/-- C9 witness: the spec round-trip scenario, owner A and title `buy milk`
    on an empty store. -/
theorem add_task_round_trip_witness :
    callTool ⟨[], 1⟩ "add_task" [("user_id", JVal.jstr "A"), ("title", JVal.jstr "buy milk")]
        = Except.ok ([("task_id", JVal.jnum 1), ("status", JVal.jstr "created"),
                      ("title", JVal.jstr "buy milk")],
            ⟨[⟨1, JVal.jstr "A", JVal.jstr "buy milk", false⟩], 2⟩) ∧
    synthesizeResponse "add_task"
        [("task_id", JVal.jnum 1), ("status", JVal.jstr "created"), ("title", JVal.jstr "buy milk")]
        = Except.ok "Added task: \x27buy milk\x27 (ID: 1)" :=
  add_task_round_trip ⟨[], 1⟩ "A" "buy milk" (by decide)

/-- C1: cross-user isolation.  For a persisted task of owner A (ids unique
    by the primary key invariant), dispatching delete_task, complete_task
    or update_task as any other owner B with that task id returns the
    not_found result (whose status field is `not_found`) and returns the
    store unchanged, so the row still exists with the same owner, title and
    completed value. -/
theorem dispatch_cross_user_not_found (st : Store) (t : Task) (A B : String)
    (hmem : t ∈ st.tasks) (hA : t.user_id = JVal.jstr A)
    (huniq : ∀ u ∈ st.tasks, u.id = t.id → u = t)
    (hne : B ≠ A) :
    callTool st "delete_task" [("user_id", JVal.jstr B), ("task_id", JVal.jnum t.id)]
        = Except.ok (notFoundResult (JVal.jnum t.id), st) ∧
    callTool st "complete_task" [("user_id", JVal.jstr B), ("task_id", JVal.jnum t.id)]
        = Except.ok (notFoundResult (JVal.jnum t.id), st) ∧
    (∀ v : JVal, callTool st "update_task"
        [("user_id", JVal.jstr B), ("task_id", JVal.jnum t.id), ("title", v)]
        = Except.ok (notFoundResult (JVal.jnum t.id), st)) ∧
    dictGet (notFoundResult (JVal.jnum t.id)) "status" = some (JVal.jstr "not_found") := by
  have hnone := whereIdOwner_cross_user hA huniq hne
  refine ⟨?_, ?_, ?_, by simp [notFoundResult, dictGet]⟩
  · simp [callTool, deleteTask, pyGet, dictGet, hnone]
  · simp [callTool, completeTask, pyGet, dictGet, hnone]
  · intro v
    simp [callTool, updateTask, pyGet, dictGet, hnone]

/-- C1 witness: a one-task store owned by A, addressed by owner B. -/
theorem dispatch_cross_user_not_found_witness :
    callTool ⟨[⟨1, JVal.jstr "A", JVal.jstr "milk", false⟩], 2⟩ "delete_task"
        [("user_id", JVal.jstr "B"), ("task_id", JVal.jnum 1)]
      = Except.ok (notFoundResult (JVal.jnum 1),
          ⟨[⟨1, JVal.jstr "A", JVal.jstr "milk", false⟩], 2⟩) ∧
    dictGet (notFoundResult (JVal.jnum 1)) "status" = some (JVal.jstr "not_found") := by
  have h := dispatch_cross_user_not_found ⟨[⟨1, JVal.jstr "A", JVal.jstr "milk", false⟩], 2⟩
    ⟨1, JVal.jstr "A", JVal.jstr "milk", false⟩ "A" "B"
    (by simp) rfl
    (by intro u hu _; simpa using hu)
    (by decide)
  exact ⟨h.1, h.2.2.2⟩

/-- C4: the toggle law of complete_task.  On a task of owner A (ids unique
    by the primary key invariant) the first dispatch flips `completed` and
    reports `completed` exactly when the new value is true, the second
    dispatch flips it back and returns the store to its original state; and
    whenever no row matches both id and owner the dispatch returns the
    not_found result and the unchanged store. -/
theorem complete_task_toggle_law (st : Store) (t : Task) (A : String)
    (hmem : t ∈ st.tasks) (hA : t.user_id = JVal.jstr A)
    (huniq : ∀ u ∈ st.tasks, u.id = t.id → u = t) :
    (∃ st₁ : Store,
      callTool st "complete_task" [("user_id", JVal.jstr A), ("task_id", JVal.jnum t.id)]
          = Except.ok ([("task_id", JVal.jnum t.id),
              ("status", JVal.jstr (if t.completed then "uncompleted" else "completed")),
              ("title", t.content)], st₁) ∧
      callTool st₁ "complete_task" [("user_id", JVal.jstr A), ("task_id", JVal.jnum t.id)]
          = Except.ok ([("task_id", JVal.jnum t.id),
              ("status", JVal.jstr (if t.completed then "completed" else "uncompleted")),
              ("title", t.content)], st)) ∧
    (∀ uidv tidv : JVal,
      (∀ u ∈ st.tasks, whereIdOwner tidv uidv u = false) →
      callTool st "complete_task" [("user_id", uidv), ("task_id", tidv)]
          = Except.ok (notFoundResult tidv, st)) := by
  constructor
  · have hpt : whereIdOwner (JVal.jnum t.id) (JVal.jstr A) t = true := by
      simp [whereIdOwner, sqlEq, hA]
    have huniq' : ∀ u ∈ st.tasks,
        whereIdOwner (JVal.jnum t.id) (JVal.jstr A) u = true → u = t := by
      intro u hu hp
      have hand := (Bool.and_eq_true _ _).mp hp
      have hid : u.id = t.id := by
        have := hand.1
        simp only [sqlEq] at this
        exact_mod_cast of_decide_eq_true this
      exact huniq u hu hid
    have hfind := find?_unique hmem hpt huniq'
    have hflip : whereIdOwner (JVal.jnum t.id) (JVal.jstr A)
        { t with completed := !t.completed } = true := hpt
    have hfind₂ := @find?_updateFirst (whereIdOwner (JVal.jnum t.id) (JVal.jstr A))
      (fun u => { u with completed := !u.completed }) st.tasks t hfind hflip
    have hinv : updateFirst (whereIdOwner (JVal.jnum t.id) (JVal.jstr A))
        (fun u => { u with completed := !u.completed })
        (updateFirst (whereIdOwner (JVal.jnum t.id) (JVal.jstr A))
          (fun u => { u with completed := !u.completed }) st.tasks) = st.tasks := by
      apply updateFirst_invol
      intro x hx
      exact ⟨hx, by simp⟩
    refine ⟨⟨updateFirst (whereIdOwner (JVal.jnum t.id) (JVal.jstr A))
        (fun u => { u with completed := !u.completed }) st.tasks, st.nextId⟩, ?_, ?_⟩
    · cases h : t.completed <;>
        simp [callTool, completeTask, pyGet, dictGet, hfind, h]
    · cases h : t.completed <;>
        simp [callTool, completeTask, pyGet, dictGet, hfind₂, hinv, h]
  · intro uidv tidv hnone
    have : st.tasks.find? (whereIdOwner tidv uidv) = none :=
      List.find?_eq_none.mpr (fun u hu hp => by simp [hnone u hu] at hp)
    simp [callTool, completeTask, pyGet, dictGet, this]

/-- C4 witness: a one-task store, toggled twice by its owner, and a
    not-found dispatch at an absent id. -/
theorem complete_task_toggle_law_witness :
    (∃ st₁ : Store,
      callTool ⟨[⟨1, JVal.jstr "A", JVal.jstr "milk", false⟩], 2⟩ "complete_task"
          [("user_id", JVal.jstr "A"), ("task_id", JVal.jnum 1)]
          = Except.ok ([("task_id", JVal.jnum 1), ("status", JVal.jstr "completed"),
              ("title", JVal.jstr "milk")], st₁) ∧
      callTool st₁ "complete_task" [("user_id", JVal.jstr "A"), ("task_id", JVal.jnum 1)]
          = Except.ok ([("task_id", JVal.jnum 1), ("status", JVal.jstr "uncompleted"),
              ("title", JVal.jstr "milk")],
              ⟨[⟨1, JVal.jstr "A", JVal.jstr "milk", false⟩], 2⟩)) ∧
    callTool ⟨[⟨1, JVal.jstr "A", JVal.jstr "milk", false⟩], 2⟩ "complete_task"
        [("user_id", JVal.jstr "A"), ("task_id", JVal.jnum 7)]
        = Except.ok (notFoundResult (JVal.jnum 7),
            ⟨[⟨1, JVal.jstr "A", JVal.jstr "milk", false⟩], 2⟩) := by
  have h := complete_task_toggle_law ⟨[⟨1, JVal.jstr "A", JVal.jstr "milk", false⟩], 2⟩
    ⟨1, JVal.jstr "A", JVal.jstr "milk", false⟩ "A"
    (by simp) rfl
    (by intro u hu _; simpa using hu)
  exact ⟨h.1, h.2 (JVal.jstr "A") (JVal.jnum 7) (by decide)⟩

/-- C8 counterexample: add_task performs no non-emptiness validation.
    Dispatching it with the empty-string title reports status `created`
    and persists a task whose title is the empty string, so the claimed
    non-empty-title invariant fails on the code. -/
theorem add_task_empty_title_cex :
    callTool ⟨[], 1⟩ "add_task" [("user_id", JVal.jstr "u"), ("title", JVal.jstr "")]
        = Except.ok ([("task_id", JVal.jnum 1), ("status", JVal.jstr "created"),
            ("title", JVal.jstr "")],
            ⟨[⟨1, JVal.jstr "u", JVal.jstr "", false⟩], 2⟩) ∧
    (⟨1, JVal.jstr "u", JVal.jstr "", false⟩ : Task) ∈
      (⟨[⟨1, JVal.jstr "u", JVal.jstr "", false⟩], 2⟩ : Store).tasks ∧
    (⟨1, JVal.jstr "u", JVal.jstr "", false⟩ : Task).content = JVal.jstr "" :=
  ⟨rfl, List.mem_singleton.mpr rfl, rfl⟩

/-- C8 amended: every task created by add_task or re-titled by update_task
    with status `created` or `updated` has a non-NULL title equal to the
    supplied title argument (a command whose arguments lack a title fails
    the NOT NULL commit and stores nothing), but the title is not validated
    further and may be the empty string. -/
theorem persisted_title_not_null :
    (∀ (st : Store) (args : JObj) (r : JObj) (st' : Store),
      addTask st args = Except.ok (r, st') →
      pyGet args "title" ≠ JVal.jnull ∧
      st'.tasks = st.tasks ++ [⟨st.nextId, pyGet args "user_id", pyGet args "title", false⟩]) ∧
    (∀ (st : Store) (args : JObj) (r : JObj) (st' : Store),
      updateTask st args = Except.ok (r, st') →
      dictGet r "status" = some (JVal.jstr "updated") →
      pyGet args "title" ≠ JVal.jnull ∧
      st'.tasks = updateFirst (whereIdOwner (pyGet args "task_id") (pyGet args "user_id"))
        (fun u => { u with content := pyGet args "title" }) st.tasks) := by
  constructor
  · intro st args r st' h
    simp only [addTask] at h
    split at h
    · cases h
    · next hc =>
      rw [not_or] at hc
      injection h with h1
      cases h1
      refine ⟨?_, rfl⟩
      intro hnull
      exact hc.1 (by rw [hnull]; rfl)
  · intro st args r st' h hstatus
    simp only [updateTask] at h
    split at h
    · injection h with h1
      cases h1
      simp [notFoundResult, dictGet] at hstatus
    · split at h
      · cases h
      · next hc =>
        injection h with h1
        cases h1
        refine ⟨?_, rfl⟩
        intro hnull
        exact hc (by rw [hnull]; rfl)

/-- C8 amended witness: an add with a present title commits it verbatim. -/
theorem persisted_title_not_null_witness :
    pyGet [("user_id", JVal.jstr "u"), ("title", JVal.jstr "milk")] "title" ≠ JVal.jnull ∧
    (⟨[⟨1, JVal.jstr "u", JVal.jstr "milk", false⟩], 2⟩ : Store).tasks
        = (⟨[], 1⟩ : Store).tasks
          ++ [⟨1, pyGet [("user_id", JVal.jstr "u"), ("title", JVal.jstr "milk")] "user_id",
               pyGet [("user_id", JVal.jstr "u"), ("title", JVal.jstr "milk")] "title", false⟩] :=
  persisted_title_not_null.1 ⟨[], 1⟩ [("user_id", JVal.jstr "u"), ("title", JVal.jstr "milk")]
    [("task_id", JVal.jnum 1), ("status", JVal.jstr "created"), ("title", JVal.jstr "milk")]
    ⟨[⟨1, JVal.jstr "u", JVal.jstr "milk", false⟩], 2⟩ rfl

/-- C5 counterexample: the phase-3 listing is not in ascending creation
    order.  On a store holding two tasks of owner A created in id order
    with increasing created_at, TaskCRUD.get_all returns the newer task
    first, so the listing order is the reverse of the ascending creation
    order the claim states. -/
theorem get_all_newest_first_cex :
    TaskCRUD.get_all
        [⟨1, "A", "first", none, false, 1⟩, ⟨2, "A", "second", none, false, 2⟩] "A" none
      = [⟨2, "A", "second", none, false, 2⟩, ⟨1, "A", "first", none, false, 1⟩] ∧
    (TaskCRUD.get_all
        [⟨1, "A", "first", none, false, 1⟩, ⟨2, "A", "second", none, false, 2⟩] "A" none).map
        P3Task.id ≠ [1, 2] := by
  constructor
  · decide
  · decide

/-- C5 amended: the backend agent listing (list_tasks of mcp_tools.py)
    returns exactly the rows whose owner matches, as a subsequence of the
    table (hence in creation order, ascending), with a count equal to the
    length of the returned list; the phase-3 variant (TaskCRUD.get_all)
    returns a permutation of exactly the owner rows ordered by created_at
    descending, newest first. -/
theorem list_tasks_order_and_count :
    (∀ (st : Store) (args : JObj),
      callTool st "list_tasks" args
          = Except.ok
              ([("tasks", JVal.jarr
                  ((st.tasks.filter (fun t => sqlEq t.user_id (pyGet args "user_id"))).map
                    taskToJson)),
                ("count", JVal.jnum
                  (st.tasks.filter (fun t => sqlEq t.user_id (pyGet args "user_id"))).length)],
               st) ∧
      (st.tasks.filter (fun t => sqlEq t.user_id (pyGet args "user_id"))).Sublist st.tasks ∧
      (∀ u, u ∈ st.tasks.filter (fun t => sqlEq t.user_id (pyGet args "user_id")) ↔
        u ∈ st.tasks ∧ sqlEq u.user_id (pyGet args "user_id") = true)) ∧
    (∀ (db : List P3Task) (uid : String),
      List.Perm (TaskCRUD.get_all db uid none) (db.filter (fun t => t.user_id = uid)) ∧
      List.Sorted p3Desc (TaskCRUD.get_all db uid none)) := by
  constructor
  · intro st args
    refine ⟨rfl, List.filter_sublist _, ?_⟩
    intro u
    simp [List.mem_filter]
  · intro db uid
    constructor
    · simpa [TaskCRUD.get_all] using
        List.perm_insertionSort p3Desc (db.filter (fun t => t.user_id = uid))
    · simpa [TaskCRUD.get_all] using
        List.sorted_insertionSort p3Desc (db.filter (fun t => t.user_id = uid))

/-- C10: the audit record of every dispatched command carries the tool
    name, the dispatch result, and the dispatched argument dict with the
    injected owner key `user_id` removed; no returned record contains a
    `user_id` key. -/
theorem audit_record_strips_user_id (st : Store) (uid text reply : String)
    (recs : List ToolCallRecord) (st' : Store)
    (h : processMessage st uid text = Except.ok (reply, recs, st')) :
    ∀ rec ∈ recs,
      hasKey rec.arguments "user_id" = false ∧
      ∃ fc af, parseFunctionCall text = some fc ∧
        pyGetD fc "arguments" (JVal.jobj []) = JVal.jobj af ∧
        rec.name = pyStr (pyGet fc "function") ∧
        rec.arguments = removeKey (objInsert af "user_id" (JVal.jstr uid)) "user_id" ∧
        callTool st rec.name (objInsert af "user_id" (JVal.jstr uid))
          = Except.ok (rec.result, st') := by
  intro rec hrec
  simp only [processMessage] at h
  split at h
  · next fc hp =>
    split at h
    · injection h with h1
      cases h1
      cases hrec
    · split at h
      · split at h
        · next af hargs =>
          split at h
          · cases h
          · next result st₁ hcall =>
            split at h
            · cases h
            · next text' hsynth =>
              injection h with h1
              cases h1
              rcases List.mem_singleton.mp hrec with rfl
              refine ⟨hasKey_removeKey _ _, fc, af, hp, hargs, rfl, rfl, ?_⟩
              exact hcall
        · cases h
      · cases h
  · injection h with h1
    cases h1
    cases hrec

/-- C10 witness: a well-formed add command dispatched for owner u1; the
    single returned record has no `user_id` key in its arguments. -/
theorem audit_record_strips_user_id_witness :
    hasKey (⟨"add_task", [("title", JVal.jstr "milk")],
        [("task_id", JVal.jnum 1), ("status", JVal.jstr "created"),
         ("title", JVal.jstr "milk")]⟩ : ToolCallRecord).arguments "user_id" = false :=
  (audit_record_strips_user_id ⟨[], 1⟩ "u1"
    "\x7b\"function\": \"add_task\", \"arguments\": \x7b\"title\": \"milk\"\x7d\x7d"
    "Added task: \x27milk\x27 (ID: 1)"
    [⟨"add_task", [("title", JVal.jstr "milk")],
      [("task_id", JVal.jnum 1), ("status", JVal.jstr "created"), ("title", JVal.jstr "milk")]⟩]
    ⟨[⟨1, JVal.jstr "u1", JVal.jstr "milk", false⟩], 2⟩ rfl
    ⟨"add_task", [("title", JVal.jstr "milk")],
      [("task_id", JVal.jnum 1), ("status", JVal.jstr "created"), ("title", JVal.jstr "milk")]⟩
    (List.mem_singleton.mpr rfl)).1

/-- C7: totality of extraction.  For every input string the extractor
    returns a command dict or nothing (it is a total function, never an
    exception), and a json parse failure on the fragment any strategy
    selected makes that strategy yield nothing, falling through to the
    next. -/
theorem parse_function_call_total_and_absorbing (s : String) :
    ((∃ d, parseFunctionCall s = some d) ∨ parseFunctionCall s = none) ∧
    (∀ e, jloads (pyStrip s.data) = Except.error e → strat1 s.data = none) ∧
    (∀ m e, searchS2 s.data = some m → jloads m = Except.error e → strat2 s.data = none) ∧
    (∀ m e, searchS3 s.data = some m → jloads m = Except.error e → strat3 s.data = none) ∧
    (∀ w frag e, searchS4 s.data = some (w, frag) → jloads frag = Except.error e →
      strat4 s.data = none) := by
  refine ⟨?_, ?_, ?_, ?_, ?_⟩
  · cases h : parseFunctionCall s with
    | some d => exact Or.inl ⟨d, rfl⟩
    | none => exact Or.inr rfl
  · intro e he
    simp [strat1, he]
  · intro m e hm he
    simp [strat2, hm, he]
  · intro m e hm he
    simp [strat3, hm, he]
  · intro w frag e hm he
    simp [strat4, hm, he]

/-- C7 witness: the input consisting of a brace-delimited non-JSON text;
    every strategy absorbs its parse failure and the extractor returns
    nothing. -/
theorem parse_function_call_total_and_absorbing_witness :
    ((∃ d, parseFunctionCall "\x7bbad\x7d" = some d) ∨
      parseFunctionCall "\x7bbad\x7d" = none) ∧
    strat1 "\x7bbad\x7d".data = none :=
  ⟨(parse_function_call_total_and_absorbing "\x7bbad\x7d").1,
   (parse_function_call_total_and_absorbing "\x7bbad\x7d").2.1 "Expecting value" rfl⟩

/-- The strategy-4 name capture is never empty: the regex requires at
    least one word character. -/
theorem matchFuncKey_name_ne_empty {cs : List Char} {w : String} {r : List Char}
    (h : matchFuncKey cs = some (w, r)) : w ≠ "" := by
  simp only [matchFuncKey] at h
  split at h
  · cases h
  · split at h
    · split at h
      · split at h
        · cases h
        · next hne =>
          split at h
          · injection h with h1
            obtain ⟨rfl, rfl⟩ := Prod.mk.inj h1
            intro hempty
            have hdq := congrArg String.data hempty
            simp only at hdq
            rw [hdq] at hne
            simp at hne
          · cases h
      · cases h
    · cases h

/-- The name returned by the strategy-4 inner scan is never empty. -/
theorem s4FindFunc_name_ne_empty {cs : List Char} {w : String} {frag : List Char}
    (h : s4FindFunc cs = some (w, frag)) : w ≠ "" := by
  induction cs with
  | nil => simp [s4FindFunc] at h
  | cons c rest ih =>
    simp only [s4FindFunc] at h
    split at h
    · next w' after hm =>
      split at h
      · injection h with h1
        obtain ⟨rfl, rfl⟩ := Prod.mk.inj h1
        exact matchFuncKey_name_ne_empty hm
      · exact ih h
    · exact ih h

/-- The name returned by the strategy-4 search is never empty. -/
theorem searchS4_name_ne_empty {cs : List Char} {w : String} {frag : List Char}
    (h : searchS4 cs = some (w, frag)) : w ≠ "" := by
  induction cs with
  | nil => simp [searchS4] at h
  | cons c rest ih =>
    simp only [searchS4] at h
    split at h
    · split at h
      · next hm =>
        injection h with h1
        obtain ⟨rfl, rfl⟩ := Prod.mk.inj h1
        exact s4FindFunc_name_ne_empty hm
      · exact ih h
    · exact ih h

/-- C2 counterexample: the extractor can return a record with no function
    field at all.  On this input strategies 1 and 2 fail, and strategy 3
    matches the inline object and returns its parse without any check, so
    the returned record lacks a `function` key (its `.get` is `None`). -/
theorem parse_unvalidated_function_cex :
    parseFunctionCall "try \x7b\"a\": \"function\"\x7d now"
        = some [("a", JVal.jstr "function")] ∧
    hasKey [("a", JVal.jstr "function")] "function" = false ∧
    pyGet [("a", JVal.jstr "function")] "function" = JVal.jnull :=
  ⟨rfl, rfl, rfl⟩

/-- Strategy 1 returns only dicts that passed the `function` key check. -/
theorem strat1_hasKey (cs : List Char) (d : JObj) (h : strat1 cs = some d) :
    hasKey d "function" = true := by
  simp only [strat1] at h
  split at h
  · split at h
    · split at h
      · next hk =>
        injection h with h1
        exact h1 ▸ hk
      · cases h
    · cases h
  · cases h

/-- Strategy 2 returns only dicts that passed the `function` key check. -/
theorem strat2_hasKey (cs : List Char) (d : JObj) (h : strat2 cs = some d) :
    hasKey d "function" = true := by
  simp only [strat2] at h
  split at h
  · split at h
    · split at h
      · next hk =>
        injection h with h1
        exact h1 ▸ hk
      · cases h
    · cases h
  · cases h

/-- Strategy 4 returns only reconstructed two-key dicts with a non-empty
    function name. -/
theorem strat4_shape (cs : List Char) (d : JObj) (h : strat4 cs = some d) :
    ∃ w af, d = [("function", JVal.jstr w), ("arguments", JVal.jobj af)] ∧ w ≠ "" := by
  simp only [strat4] at h
  split at h
  · next w frag hs4 =>
    split at h
    · next af hj =>
      injection h with h1
      exact ⟨w, af, h1.symm, searchS4_name_ne_empty hs4⟩
    · cases h
  · cases h

/-- C2 amended: strategies 1 and 2 validate only the presence of a
    `function` key (the value may be null) before returning, and strategy
    4 returns by construction a record whose function field is a non-empty
    name; strategy 3 returns its parsed object without any validation, so
    an extracted record need not carry a function field. -/
theorem strategies_function_key_guarantees :
    (∀ (cs : List Char) (d : JObj), strat1 cs = some d → hasKey d "function" = true) ∧
    (∀ (cs : List Char) (d : JObj), strat2 cs = some d → hasKey d "function" = true) ∧
    (∀ (cs : List Char) (d : JObj), strat4 cs = some d →
      ∃ w af, d = [("function", JVal.jstr w), ("arguments", JVal.jobj af)] ∧ w ≠ "") :=
  ⟨strat1_hasKey, strat2_hasKey, strat4_shape⟩

/-- C2 amended witness: strategy 1 on the canonical command, and strategy
    4 on a prose-wrapped command, keep their guarantees. -/
theorem strategies_function_key_guarantees_witness :
    hasKey [("function", JVal.jstr "list_tasks"), ("arguments", JVal.jobj [])] "function"
        = true ∧
    ∃ w af, ([("function", JVal.jstr "add_task"),
              ("arguments", JVal.jobj [("title", JVal.jstr "x")])] : JObj)
        = [("function", JVal.jstr w), ("arguments", JVal.jobj af)] ∧ w ≠ "" :=
  ⟨strategies_function_key_guarantees.1
      "\x7b\"function\": \"list_tasks\", \"arguments\": \x7b\x7d\x7d".data
      [("function", JVal.jstr "list_tasks"), ("arguments", JVal.jobj [])] rfl,
   strategies_function_key_guarantees.2.2
      "call \x7b\"function\": \"add_task\", \"arguments\": \x7b\"title\": \"x\"\x7d\x7d ok".data
      [("function", JVal.jstr "add_task"), ("arguments", JVal.jobj [("title", JVal.jstr "x")])]
      rfl⟩

/-- Python dict assignment never empties a dict. -/
theorem objInsert_ne_nil (o : JObj) (k : String) (v : JVal) : objInsert o k v ≠ [] := by
  simp only [objInsert]
  split
  · next hk =>
    intro hnil
    rw [List.map_eq_nil] at hnil
    subst hnil
    simp [hasKey, dictGet] at hk
  · simp

/-- The member loop of the object parser only ever returns a non-empty
    dict: it accumulates at least the member it just parsed. -/
theorem parseMembers_obj_ne_nil :
    ∀ (fuel : Nat) (cs : List Char) (acc : JObj) (fs : JObj) (r : List Char),
      parseMembers fuel cs acc = some (JVal.jobj fs, r) → fs ≠ [] := by
  intro fuel
  induction fuel with
  | zero => intro cs acc fs r h; cases h
  | succ fuel ih =>
    intro cs acc fs r h
    simp only [parseMembers] at h
    repeat' split at h
    all_goals
      first
      | exact ih _ _ _ _ h
      | (cases h
         all_goals exact objInsert_ne_nil _ _ _)

/-- A pattern occurrence puts its head character into the text. -/
theorem containsSeq_head_mem {p : Char} {ps cs : List Char}
    (h : containsSeq (p :: ps) cs = true) : p ∈ cs := by
  induction cs with
  | nil => simp [containsSeq, startsWithSeq] at h
  | cons c rest ih =>
    simp only [containsSeq, Bool.or_eq_true] at h
    rcases h with h | h
    · simp only [startsWithSeq, Bool.and_eq_true] at h
      exact List.mem_cons.mpr (Or.inl (of_decide_eq_true h.1))
    · exact List.mem_cons_of_mem c (ih h)

/-- A list with a member the predicate rejects does not drop to nothing. -/
theorem dropWhile_ne_nil_of_mem {p : Char → Bool} {c : Char} {l : List Char}
    (hmem : c ∈ l) (hc : p c = false) : l.dropWhile p ≠ [] := by
  induction l with
  | nil => cases hmem
  | cons a rest ih =>
    rw [List.dropWhile_cons]
    split
    · next ha =>
      rcases List.mem_cons.mp hmem with rfl | hmem'
      · rw [ha] at hc; cases hc
      · exact ih hmem'
    · simp

/-- Shape of a strategy-3 match: a brace, a brace-free run containing the
    literal `"function"`, and a closing brace. -/
theorem searchS3_shape {cs m : List Char} (h : searchS3 cs = some m) :
    ∃ run : List Char, m = '{' :: (run ++ ['}']) ∧
      (∀ c ∈ run, nonBrace c = true) ∧ containsSeq qFunctionLit run = true := by
  induction cs with
  | nil => simp [searchS3] at h
  | cons c rest ih =>
    simp only [searchS3] at h
    split at h
    · next m' hat =>
      injection h with h1
      subst h1
      simp only [s3At] at hat
      split at hat
      · split at hat
        · split at hat
          · next hcont =>
            injection hat with h2
            exact ⟨rest.takeWhile nonBrace, h2.symm,
              fun c hc => List.mem_takeWhile_imp hc, hcont⟩
          · cases hat
        · cases hat
      · cases hat
    · exact ih h

/-- A json parse of a strategy-3 match (a brace-free run containing the
    quoted `function` literal between braces) never yields the empty dict:
    the run holds a non-whitespace character, so the object parser takes
    the member branch. -/
theorem jloads_inline_obj_ne_nil {run : List Char} {fs : JObj}
    (hnb : ∀ c ∈ run, nonBrace c = true)
    (hcont : containsSeq qFunctionLit run = true)
    (h : jloads ('{' :: (run ++ ['}'])) = Except.ok (JVal.jobj fs)) : fs ≠ [] := by
  have hq : '"' ∈ run :=
    containsSeq_head_mem (show containsSeq ('"' :: "function\"".data) run = true from hcont)
  have hqws : pyWs '"' = false := rfl
  have hrun' : run.dropWhile pyWs ≠ [] := dropWhile_ne_nil_of_mem hq hqws
  have hskip : skipWs ('{' :: (run ++ ['}'])) = '{' :: (run ++ ['}']) := by
    simp [skipWs, List.dropWhile_cons, pyWs]
  simp only [jloads, hskip] at h
  split at h
  · next v rest heq =>
    split at h
    · injection h with h1
      subst h1
      obtain ⟨c₀, run₂, hc0⟩ : ∃ c₀ run₂, run.dropWhile pyWs = c₀ :: run₂ := by
        rcases hdw : run.dropWhile pyWs with _ | ⟨a, b⟩
        · exact absurd hdw hrun'
        · exact ⟨a, b, rfl⟩
      have hc0mem : c₀ ∈ run :=
        (List.dropWhile_sublist pyWs).subset (hc0 ▸ List.mem_cons_self c₀ run₂)
      have hc0nb : nonBrace c₀ = true := hnb c₀ hc0mem
      have hc0ne : ¬ c₀ = '}' := by
        intro hcc
        rw [hcc] at hc0nb
        simp [nonBrace] at hc0nb
      have hsw2 : skipWs (run ++ ['}']) = c₀ :: (run₂ ++ ['}']) := by
        simp only [skipWs, List.dropWhile_append]
        rw [hc0]
        simp
      rw [show (4 * ('{' :: (run ++ ['}'])).length + 8)
            = (4 * ('{' :: (run ++ ['}'])).length + 7) + 1 from rfl] at heq
      simp only [parseValue, hsw2] at heq
      rw [show (4 * ('{' :: (run ++ ['}'])).length + 7)
            = (4 * ('{' :: (run ++ ['}'])).length + 6) + 1 from rfl] at heq
      simp only [parseObjBody] at heq
      rw [if_neg hc0ne] at heq
      exact parseMembers_obj_ne_nil _ _ _ _ _ heq
    · cases h
  · cases h

/-- A key-presence check only succeeds on a non-empty dict. -/
theorem hasKey_ne_nil {d : JObj} {k : String} (h : hasKey d k = true) : d ≠ [] := by
  intro hnil
  rw [hnil] at h
  simp [hasKey, dictGet] at h

/-- The extractor never returns the empty dict: strategies 1, 2 and 4
    guarantee a function key, and a strategy-3 match always parses to a
    dict with at least one member. -/
theorem parseFunctionCall_ne_nil {text : String} {fc : JObj}
    (h : parseFunctionCall text = some fc) : fc ≠ [] := by
  simp only [parseFunctionCall] at h
  split at h
  · next h1 =>
    injection h with h2
    exact hasKey_ne_nil (strat1_hasKey _ _ (h2 ▸ h1))
  · split at h
    · next h1 =>
      injection h with h2
      exact hasKey_ne_nil (strat2_hasKey _ _ (h2 ▸ h1))
    · split at h
      · next h1 =>
        injection h with h2
        rw [h2] at h1
        simp only [strat3] at h1
        split at h1
        · next m hm =>
          split at h1
          · next fields hj =>
            injection h1 with h3
            subst h3
            obtain ⟨run, rfl, hnb, hcont⟩ := searchS3_shape hm
            exact jloads_inline_obj_ne_nil hnb hcont hj
          · cases h1
        · cases h1
      · obtain ⟨w, af, rfl, _⟩ := strat4_shape _ _ h
        simp

/-- C3: when the extractor returns a parsed object whose `function` value
    is absent, null, or the empty string (which strategy 3 permits, since
    it returns an unvalidated parse), process_message enters neither the
    dispatch branch nor the passthrough branch, so `response_text` is
    referenced before assignment and the call raises UnboundLocalError
    instead of returning a reply.  (An extracted dict is never empty, so
    the truthiness guard on it always passes.) -/
theorem processMessage_falsy_function_raises (st : Store) (uid text : String) (fc : JObj)
    (hp : parseFunctionCall text = some fc)
    (hf : pyGet fc "function" = JVal.jnull ∨ pyGet fc "function" = JVal.jstr "") :
    processMessage st uid text = Except.error PyErr.unboundLocal := by
  have hne : fc ≠ [] := parseFunctionCall_ne_nil hp
  have hemp : fc.isEmpty = false := by
    cases fc with
    | nil => exact absurd rfl hne
    | cons a l => rfl
  have htr : pyTruthy (pyGet fc "function") = false := by
    rcases hf with hf | hf <;> rw [hf] <;> rfl
  simp [processMessage, hp, hemp, htr]

/-- C3 witness: an input whose only brace block is an inline object that
    merely mentions the `function` literal in a value; strategy 3 returns
    it without a function key and process_message raises. -/
theorem processMessage_falsy_function_raises_witness :
    processMessage ⟨[], 1⟩ "u1" "see \x7b\"b\": \"function\"\x7d here"
      = Except.error PyErr.unboundLocal :=
  processMessage_falsy_function_raises ⟨[], 1⟩ "u1" "see \x7b\"b\": \"function\"\x7d here"
    [("b", JVal.jstr "function")] rfl (Or.inl rfl)
